import Mathlib

/-!
Verification of the polymorphic_ransom_study repository.

The development shallowly embeds the three C programs of the repository:
the two self-mutating executables (`polymorphic_demo_linux.c`,
`polymorphic_demo_windows.c`) and the backup classifier
(`llm_backup_classifier.c`).  Bytes are modelled as `Nat` values with
explicit `% 256` where the C code truncates to `unsigned char`; byte
buffers are `List Nat`; fallible OS calls are modelled by explicit
success flags or `Option` inputs.
-/

namespace RansomStudy

/-- Constant `KEY_SIZE` from both mutators. -/
def KEY_SIZE : Nat := 8

/-- Constant `MAX_FILES` from the classifier. -/
def MAX_FILES : Nat := 1000

/-- Constant `MAX_FILENAME_LEN` from the classifier. -/
def MAX_FILENAME_LEN : Nat := 256

/-- One step of the byte transform `data[i] ^= (key[i % KEY_SIZE] - 1)`
from `xor_crypt` / `xor_crypt_file` / `xor_crypt_additional`.  The key
byte is an `unsigned char`, so `key - 1` taken modulo 256 is
`(key + 255) % 256`, and the assignment back into the `unsigned char`
buffer truncates modulo 256. -/
def cryptByte (k : Nat → Nat) (i b : Nat) : Nat :=
  (b ^^^ ((k (i % KEY_SIZE) + 255) % 256)) % 256

/-- Function `xor_crypt(data, len)` (identically `xor_crypt_file` and
`xor_crypt_additional`): transform every byte of the buffer, the key
repeating with period `KEY_SIZE`. -/
def xor_crypt (k : Nat → Nat) (data : List Nat) : List Nat :=
  data.mapIdx fun i b => cryptByte k i b

/-- A call `xor_crypt_file(data + off, len)` on a sub-range of a larger
buffer, as done on a section of the file image: bytes with index in
`[off, off + len)` are transformed, the key position counted from the
start of the range; all other bytes are untouched. -/
def xor_crypt_at (k : Nat → Nat) (data : List Nat) (off len : Nat) : List Nat :=
  data.mapIdx fun i b => if off ≤ i ∧ i < off + len then cryptByte k (i - off) b else b

theorem cryptByte_lt (k : Nat → Nat) (i b : Nat) : cryptByte k i b < 256 :=
  Nat.mod_lt _ (by norm_num)

theorem cryptByte_invol (k : Nat → Nat) (i : Nat) {b : Nat} (hb : b < 256) :
    cryptByte k i (cryptByte k i b) = b := by
  unfold cryptByte
  set m := (k (i % KEY_SIZE) + 255) % 256 with hm
  have hmlt : m < 256 := Nat.mod_lt _ (by norm_num)
  have hx : b ^^^ m < 256 := by
    have := Nat.xor_lt_two_pow (n := 8) (by simpa using hb) (by simpa using hmlt)
    simpa using this
  rw [Nat.mod_eq_of_lt hx]
  have hxx : b ^^^ m ^^^ m = b := by
    rw [Nat.xor_assoc, Nat.xor_self, Nat.xor_zero]
  rw [hxx, Nat.mod_eq_of_lt hb]

theorem length_xor_crypt (k : Nat → Nat) (data : List Nat) :
    (xor_crypt k data).length = data.length := by
  simp [xor_crypt]

theorem getElem_xor_crypt (k : Nat → Nat) (data : List Nat) (i : Nat)
    (h : i < data.length) (h2 : i < (xor_crypt k data).length) :
    (xor_crypt k data)[i] = cryptByte k i data[i] := by
  simp [xor_crypt, List.getElem_mapIdx]

theorem length_xor_crypt_at (k : Nat → Nat) (data : List Nat) (off len : Nat) :
    (xor_crypt_at k data off len).length = data.length := by
  simp [xor_crypt_at]

theorem getElem_xor_crypt_at (k : Nat → Nat) (data : List Nat) (off len i : Nat)
    (h : i < data.length) (h2 : i < (xor_crypt_at k data off len).length) :
    (xor_crypt_at k data off len)[i] =
      if off ≤ i ∧ i < off + len then cryptByte k (i - off) data[i] else data[i] := by
  simp [xor_crypt_at, List.getElem_mapIdx]

/-- C1: applying the transform `data[i] ^= (key[i mod 8] - 1)` twice in
succession with the same key restores the original byte sequence. -/
theorem xor_crypt_self_inverse (k : Nat → Nat) (data : List Nat)
    (h : ∀ b ∈ data, b < 256) :
    xor_crypt k (xor_crypt k data) = data := by
  apply List.ext_getElem
  · simp [length_xor_crypt]
  · intro i h1 h2
    have hlen : i < (xor_crypt k data).length := by simpa [length_xor_crypt] using h2
    rw [getElem_xor_crypt k (xor_crypt k data) i hlen h1,
      getElem_xor_crypt k data i h2 hlen]
    exact cryptByte_invol k i (h _ (List.getElem_mem h2))

/-- Witness for C1 at a concrete key and buffer. -/
theorem xor_crypt_self_inverse_witness :
    xor_crypt (fun i => i + 250) (xor_crypt (fun i => i + 250) [0, 1, 2, 255, 128, 77]) =
      [0, 1, 2, 255, 128, 77] :=
  xor_crypt_self_inverse (fun i => i + 250) [0, 1, 2, 255, 128, 77] (by decide)

theorem xor_crypt_at_cancel (k : Nat → Nat) (data : List Nat) (off len : Nat)
    (h : ∀ b ∈ data, b < 256) :
    xor_crypt_at k (xor_crypt_at k data off len) off len = data := by
  apply List.ext_getElem
  · simp [length_xor_crypt_at]
  · intro i h1 h2
    have hlen : i < (xor_crypt_at k data off len).length := by
      simpa [length_xor_crypt_at] using h2
    rw [getElem_xor_crypt_at k (xor_crypt_at k data off len) off len i hlen h1,
      getElem_xor_crypt_at k data off len i h2 hlen]
    by_cases hin : off ≤ i ∧ i < off + len
    · simp only [hin, if_pos]
      exact cryptByte_invol k (i - off) (h _ (List.getElem_mem h2))
    · simp only [hin, if_neg, not_false_iff]

/-- Value `ORIG_KEY`, the string literal of eight 01 bytes: the compiled-in
bootstrap key of both mutators. -/
def ORIG_KEY : List Nat := [1, 1, 1, 1, 1, 1, 1, 1]

/-- The key function read off an 8-byte key buffer. -/
def key_fun (key : List Nat) : Nat → Nat := fun i => key.getD i 0

theorem cryptByte_orig_key (i : Nat) {b : Nat} (hb : b < 256) :
    cryptByte (key_fun ORIG_KEY) i b = b := by
  have h8 : i % KEY_SIZE < 8 := Nat.mod_lt _ (by norm_num [KEY_SIZE])
  have hk : key_fun ORIG_KEY (i % KEY_SIZE) = 1 := by
    generalize i % KEY_SIZE = m at h8
    interval_cases m <;> rfl
  unfold cryptByte
  have h0 : (1 + 255) % 256 = 0 := by norm_num
  rw [hk, h0, Nat.xor_zero, Nat.mod_eq_of_lt hb]

/-- C9: under the bootstrap key `01 01 ... 01` every key byte minus one
is zero, so the transform XORs with zero and every call is the identity,
both over a whole buffer and over any section sub-range. -/
theorem orig_key_transform_is_identity (data : List Nat) (off sz : Nat)
    (h : ∀ b ∈ data, b < 256) :
    xor_crypt (key_fun ORIG_KEY) data = data ∧
      xor_crypt_at (key_fun ORIG_KEY) data off sz = data := by
  constructor
  · apply List.ext_getElem
    · simp [length_xor_crypt]
    · intro i h1 h2
      rw [getElem_xor_crypt (key_fun ORIG_KEY) data i h2 h1]
      exact cryptByte_orig_key i (h _ (List.getElem_mem h2))
  · apply List.ext_getElem
    · simp [length_xor_crypt_at]
    · intro i h1 h2
      rw [getElem_xor_crypt_at (key_fun ORIG_KEY) data off sz i h2 h1]
      by_cases hin : off ≤ i ∧ i < off + sz
      · simp only [hin, if_pos]
        exact cryptByte_orig_key (i - off) (h _ (List.getElem_mem h2))
      · simp only [hin, if_neg, not_false_iff]

/-- Witness for C9 at a concrete buffer. -/
theorem orig_key_transform_is_identity_witness :
    xor_crypt (key_fun ORIG_KEY) [3, 14, 159, 26, 255] = [3, 14, 159, 26, 255] ∧
      xor_crypt_at (key_fun ORIG_KEY) [3, 14, 159, 26, 255] 1 3 = [3, 14, 159, 26, 255] :=
  orig_key_transform_is_identity [3, 14, 159, 26, 255] 1 3 (by decide)

namespace ElfDemo

/-- The section-name list `sections_to_encrypt` of the ELF mutator's
`encrypt_file_sections`. -/
def sections_to_encrypt : List String := [".data", ".rodata", ".bss"]

/-- The body of the loop in the ELF `encrypt_file_sections`: look the
section up by name (`get_section` abstracts the ELF section-header walk);
when it exists with non-zero size, apply `xor_crypt_file` to its range
twice in succession ("decrypt first if already encrypted", then
"re-encrypt with new file key" — both calls use the same `file_key`). -/
def encrypt_one_section (file_key : Nat → Nat) (get_section : String → Option (Nat × Nat))
    (data : List Nat) (name : String) : List Nat :=
  match get_section name with
  | some sec =>
    if 0 < sec.2 then
      xor_crypt_at file_key (xor_crypt_at file_key data sec.1 sec.2) sec.1 sec.2
    else data
  | none => data

/-- Function `encrypt_file_sections(data)` of the ELF mutator: iterate
`encrypt_one_section` over `.data`, `.rodata`, `.bss`. -/
def encrypt_file_sections (file_key : Nat → Nat)
    (get_section : String → Option (Nat × Nat)) (data : List Nat) : List Nat :=
  sections_to_encrypt.foldl (encrypt_one_section file_key get_section) data

theorem encrypt_one_section_id (file_key : Nat → Nat)
    (get_section : String → Option (Nat × Nat)) (data : List Nat) (name : String)
    (h : ∀ b ∈ data, b < 256) :
    encrypt_one_section file_key get_section data name = data := by
  unfold encrypt_one_section
  cases get_section name with
  | none => rfl
  | some sec =>
    by_cases hsz : 0 < sec.2
    · simp only [hsz, if_pos]
      exact xor_crypt_at_cancel file_key data sec.1 sec.2 h
    · simp only [hsz, if_neg, not_false_iff]

theorem encrypt_sections_foldl_id (file_key : Nat → Nat)
    (get_section : String → Option (Nat × Nat)) (names : List String) (data : List Nat)
    (h : ∀ b ∈ data, b < 256) :
    names.foldl (encrypt_one_section file_key get_section) data = data := by
  induction names with
  | nil => rfl
  | cons n ns ih =>
    rw [List.foldl_cons, encrypt_one_section_id file_key get_section data n h]
    exact ih

/-- C2: the ELF mutator's auxiliary-section step transforms each of
`.data`, `.rodata`, `.bss` twice in immediate succession with the same
`file_key`, so the two applications cancel and the whole call is the
identity on the file image bytes. -/
theorem encrypt_file_sections_is_identity (file_key : Nat → Nat)
    (get_section : String → Option (Nat × Nat)) (data : List Nat)
    (h : ∀ b ∈ data, b < 256) :
    encrypt_file_sections file_key get_section data = data :=
  encrypt_sections_foldl_id file_key get_section sections_to_encrypt data h

/-- Witness for C2 at a concrete image with all three sections present. -/
theorem encrypt_file_sections_is_identity_witness :
    encrypt_file_sections (fun i => i * 7 + 1)
      (fun s => if s = ".data" then some (0, 3) else
        if s = ".rodata" then some (3, 2) else
        if s = ".bss" then some (5, 2) else none)
      [9, 8, 7, 6, 5, 4, 200] = [9, 8, 7, 6, 5, 4, 200] :=
  encrypt_file_sections_is_identity (fun i => i * 7 + 1)
    (fun s => if s = ".data" then some (0, 3) else
      if s = ".rodata" then some (3, 2) else
      if s = ".bss" then some (5, 2) else none)
    [9, 8, 7, 6, 5, 4, 200] (by decide)

/-- Function `mutate(data, filename, filesize)` of the ELF mutator.  `get_section`
abstracts `get_section(data, name)` over the heap copy `data` of the
executable image; `k` is the current global `key`; `rands` the stream of
`rand()` draws; the booleans are the outcomes of the two `mprotect`
calls and of `unlink`/`open`/`write`.  The first component is the
resulting state of the executable file on disk (`none` when the old
file was removed and no new one was created), the second the
fatal-error message, `none` on success.  The decryption of the runtime
pages (`xor_crypt(runtime_addr, ...)`) only touches process memory,
never the file, and so does not appear in the on-disk result. -/
def mutate (get_section : String → Option (Nat × Nat)) (k : Nat → Nat) (rands : Nat → Nat)
    (mp1 mp2 unlink_ok open_ok write_ok : Bool) (data disk : List Nat) :
    Option (List Nat) × Option String :=
  match get_section (".poly") with
  | none => (some disk, some ("Could not find polymorphic section"))
  | some sec =>
    if mp1 = false then (some disk, some ("Could not make memory writable"))
    else if mp2 = false then (some disk, some ("Could not restore memory protection"))
    else if unlink_ok = false then (some disk, some ("Could not remove old file"))
    else if open_ok = false then (none, some ("Could not create new file"))
    else if write_ok = false then (some [], some ("Could not write file"))
    else
      (some (encrypt_file_sections (fun i => rands (KEY_SIZE + i) % 255) get_section
        (xor_crypt_at (fun i => rands i % 255)
          (xor_crypt_at k data sec.1 sec.2) sec.1 sec.2)), none)

end ElfDemo

namespace PeDemo

/-- The slice of `sz` raw bytes of a section starting at file offset
`off` in the image. -/
def section_bytes (data : List Nat) (off sz : Nat) : List Nat :=
  (data.drop off).take sz

/-- Step `memcpy(key, key_in_file, KEY_SIZE)`: the key recovered from the
image's `.data` raw bytes starting at offset `off`, as a key function. -/
def read_key (data : List Nat) (off : Nat) : Nat → Nat :=
  fun j => data.getD (off + j) 0

/-- Step `memcpy(key_in_file, key, KEY_SIZE)`: overwrite the `KEY_SIZE` bytes
at offset `off` of the image with the new key bytes. -/
def write_key (new_key : Nat → Nat) (data : List Nat) (off : Nat) : List Nat :=
  data.mapIdx fun i b => if off ≤ i ∧ i < off + KEY_SIZE then new_key (i - off) else b

/-- The section-name list `sections_to_encrypt` of the PE
`encrypt_file_sections` (only `.rdata`; `.data` holds the keys). -/
def sections_to_encrypt : List String := [".rdata"]

/-- The body of the loop in the PE `encrypt_file_sections`: one call
`xor_crypt_additional(section_data, SizeOfRawData, file_key)` on the
section's raw range when the section exists with non-zero raw size. -/
def encrypt_one_section (file_key : Nat → Nat) (find_section : String → Option (Nat × Nat))
    (data : List Nat) (name : String) : List Nat :=
  match find_section name with
  | some sec => if 0 < sec.2 then xor_crypt_at file_key data sec.1 sec.2 else data
  | none => data

/-- Function `encrypt_file_sections(mapped_data, file_key)` of the PE mutator. -/
def encrypt_file_sections (file_key : Nat → Nat)
    (find_section : String → Option (Nat × Nat)) (data : List Nat) : List Nat :=
  sections_to_encrypt.foldl (encrypt_one_section file_key find_section) data

/-- Function `mutate_executable` of the PE mutator, acting on the mapped file
image `disk`.  `find_section` abstracts the walk over the PE section
table (it returns the pair `(PointerToRawData, SizeOfRawData)`, and
returns `none` both for a missing name and for invalid DOS/NT header
signatures); `rands` abstracts the stream of `rand()` draws.  The steps,
in source order: find `.data` (fatal if absent), find `.poly` (fatal if
absent), copy the persisted key out of `.data`, decrypt `.poly` with it,
draw the new key (`rand() % 255` per byte), write it into `.data`,
re-encrypt `.poly` with the new key, draw the transient file key and
encrypt the auxiliary sections, then flush.  The second component is the
fatal-error message, `none` on success. -/
def mutate_executable (find_section : String → Option (Nat × Nat)) (rands : Nat → Nat)
    (disk : List Nat) : List Nat × Option String :=
  match find_section (".data") with
  | none => (disk, some ("Could not find .data section"))
  | some dsec =>
    match find_section (".poly") with
    | none => (disk, some ("Could not find polymorphic section"))
    | some psec =>
      (encrypt_file_sections (fun i => rands (KEY_SIZE + i) % 255) find_section
        (xor_crypt_at (fun i => rands i % 255)
          (write_key (fun i => rands i % 255)
            (xor_crypt_at (read_key disk dsec.1) disk psec.1 psec.2) dsec.1)
          psec.1 psec.2), none)

theorem length_write_key (new_key : Nat → Nat) (data : List Nat) (off : Nat) :
    (write_key new_key data off).length = data.length := by
  simp [write_key]

theorem getD_write_key (new_key : Nat → Nat) (data : List Nat) (off i : Nat)
    (h : i < data.length) :
    (write_key new_key data off).getD i 0 =
      if off ≤ i ∧ i < off + KEY_SIZE then new_key (i - off) else data.getD i 0 := by
  have h2 : i < (write_key new_key data off).length := by
    simpa [length_write_key] using h
  rw [List.getD_eq_getElem _ _ h2, List.getD_eq_getElem _ _ h]
  simp [write_key, List.getElem_mapIdx]

theorem getD_xor_crypt_at (k : Nat → Nat) (data : List Nat) (off len i : Nat)
    (h : i < data.length) :
    (xor_crypt_at k data off len).getD i 0 =
      if off ≤ i ∧ i < off + len then cryptByte k (i - off) (data.getD i 0)
      else data.getD i 0 := by
  have h2 : i < (xor_crypt_at k data off len).length := by
    simpa [length_xor_crypt_at] using h
  rw [List.getD_eq_getElem _ _ h2, List.getD_eq_getElem _ _ h]
  exact getElem_xor_crypt_at k data off len i h h2

theorem length_encrypt_one_section (file_key : Nat → Nat)
    (find_section : String → Option (Nat × Nat)) (data : List Nat) (name : String) :
    (encrypt_one_section file_key find_section data name).length = data.length := by
  unfold encrypt_one_section
  cases find_section name with
  | none => rfl
  | some sec =>
    by_cases hsz : 0 < sec.2
    · simp [hsz, length_xor_crypt_at]
    · simp [hsz]

theorem length_encrypt_file_sections (file_key : Nat → Nat)
    (find_section : String → Option (Nat × Nat)) (data : List Nat) :
    (encrypt_file_sections file_key find_section data).length = data.length := by
  unfold encrypt_file_sections sections_to_encrypt
  simp [length_encrypt_one_section]

theorem getD_encrypt_file_sections_outside (file_key : Nat → Nat)
    (find_section : String → Option (Nat × Nat)) (data : List Nat) (i : Nat)
    (h : i < data.length)
    (hout : ∀ roff rsz, find_section (".rdata") = some (roff, rsz) →
      ¬(roff ≤ i ∧ i < roff + rsz)) :
    (encrypt_file_sections file_key find_section data).getD i 0 = data.getD i 0 := by
  unfold encrypt_file_sections sections_to_encrypt
  simp only [List.foldl_cons, List.foldl_nil]
  unfold encrypt_one_section
  cases hr : find_section (".rdata") with
  | none => rfl
  | some sec =>
    by_cases hsz : 0 < sec.2
    · simp only [hsz, if_pos]
      rw [getD_xor_crypt_at file_key data sec.1 sec.2 i h]
      exact if_neg (hout sec.1 sec.2 hr)
    · simp only [hsz, if_neg, not_false_iff]

/-- The transform only reads the key at positions `0 ≤ j < KEY_SIZE`. -/
theorem xor_crypt_key_congr (k1 k2 : Nat → Nat) (data : List Nat)
    (h : ∀ j, j < KEY_SIZE → k1 j = k2 j) :
    xor_crypt k1 data = xor_crypt k2 data := by
  apply List.ext_getElem
  · simp [length_xor_crypt]
  · intro i h1 h2
    have hd : i < data.length := by simpa [length_xor_crypt] using h1
    rw [getElem_xor_crypt k1 data i hd h1, getElem_xor_crypt k2 data i hd h2]
    unfold cryptByte
    rw [h (i % KEY_SIZE) (Nat.mod_lt _ (by norm_num [KEY_SIZE]))]

theorem length_section_bytes (data : List Nat) (off sz : Nat)
    (h : off + sz ≤ data.length) : (section_bytes data off sz).length = sz := by
  simp only [section_bytes, List.length_take, List.length_drop]
  omega

theorem getElem_section_bytes (data : List Nat) (off sz t : Nat)
    (h : off + sz ≤ data.length) (ht : t < sz)
    (h1 : t < (section_bytes data off sz).length) (h2 : off + t < data.length) :
    (section_bytes data off sz)[t] = data[off + t] := by
  simp [section_bytes]

/-- C3: after one PE mutation pass, the key recovered from the start of
the rewritten image's `.data` raw bytes decrypts the rewritten `.poly`
raw bytes back to exactly the pre-mutation `.poly` plaintext (the
pre-mutation `.poly` raw bytes decrypted under the pre-mutation
persisted key).  The hypotheses say that the headers are valid with
`.data` and `.poly` present, that `.data` holds at least the 8 key
bytes, and that the raw ranges of the key area of `.data`, of `.poly` and (when
present) `.rdata` do not overlap, as in any well-formed PE image. -/
theorem mutate_executable_key_roundtrip
    (find_section : String → Option (Nat × Nat)) (rands : Nat → Nat) (disk : List Nat)
    (doff dsz poff psz : Nat)
    (hd : find_section (".data") = some (doff, dsz))
    (hp : find_section (".poly") = some (poff, psz))
    (hdlen : doff + KEY_SIZE ≤ disk.length)
    (hplen : poff + psz ≤ disk.length)
    (hdp : ∀ i, ¬((doff ≤ i ∧ i < doff + KEY_SIZE) ∧ (poff ≤ i ∧ i < poff + psz)))
    (hrd : ∀ roff rsz, find_section (".rdata") = some (roff, rsz) →
        ∀ i, (doff ≤ i ∧ i < doff + KEY_SIZE) ∨ (poff ≤ i ∧ i < poff + psz) →
          ¬(roff ≤ i ∧ i < roff + rsz)) :
    (mutate_executable find_section rands disk).2 = none ∧
      xor_crypt (read_key (mutate_executable find_section rands disk).1 doff)
          (section_bytes (mutate_executable find_section rands disk).1 poff psz) =
        xor_crypt (read_key disk doff) (section_bytes disk poff psz) := by
  have hks : KEY_SIZE = 8 := rfl
  have hres : mutate_executable find_section rands disk =
      (encrypt_file_sections (fun i => rands (KEY_SIZE + i) % 255) find_section
        (xor_crypt_at (fun i => rands i % 255)
          (write_key (fun i => rands i % 255)
            (xor_crypt_at (read_key disk doff) disk poff psz) doff)
          poff psz), none) := by
    simp only [mutate_executable, hd, hp]
  rw [hres]
  refine ⟨rfl, ?_⟩
  set ok := read_key disk doff with hok
  set nk : Nat → Nat := fun i => rands i % 255 with hnk
  set fkey : Nat → Nat := fun i => rands (KEY_SIZE + i) % 255 with hfkey
  set d1 := xor_crypt_at ok disk poff psz with hd1
  set d2 := write_key nk d1 doff with hd2
  set d3 := xor_crypt_at nk d2 poff psz with hd3
  set img := encrypt_file_sections fkey find_section d3 with himgdef
  have l1 : d1.length = disk.length := by
    rw [hd1]; exact length_xor_crypt_at ok disk poff psz
  have l2 : d2.length = disk.length := by rw [hd2, length_write_key, l1]
  have l3 : d3.length = disk.length := by rw [hd3, length_xor_crypt_at, l2]
  have limg : img.length = disk.length := by
    rw [himgdef, length_encrypt_file_sections, l3]
  have hkey_img : ∀ j, j < KEY_SIZE → read_key img doff j = nk j := by
    intro j hj
    show img.getD (doff + j) 0 = nk j
    have hij : doff + j < disk.length := by omega
    have h1 : img.getD (doff + j) 0 = d3.getD (doff + j) 0 := by
      rw [himgdef]
      exact getD_encrypt_file_sections_outside fkey find_section d3 _ (by omega)
        (fun roff rsz hr => hrd roff rsz hr _ (Or.inl ⟨by omega, by omega⟩))
    have h2 : d3.getD (doff + j) 0 = d2.getD (doff + j) 0 := by
      rw [hd3, getD_xor_crypt_at nk d2 poff psz _ (by omega),
        if_neg (fun hin => hdp (doff + j) ⟨⟨by omega, by omega⟩, hin⟩)]
    have h3 : d2.getD (doff + j) 0 = nk j := by
      rw [hd2, getD_write_key nk d1 doff _ (by omega),
        if_pos ⟨by omega, by omega⟩, Nat.add_sub_cancel_left]
    rw [h1, h2, h3]
  have hpoly : ∀ t, t < psz → img.getD (poff + t) 0 =
      cryptByte nk t (cryptByte ok t (disk.getD (poff + t) 0)) := by
    intro t ht
    have hit : poff + t < disk.length := by omega
    have h1 : img.getD (poff + t) 0 = d3.getD (poff + t) 0 := by
      rw [himgdef]
      exact getD_encrypt_file_sections_outside fkey find_section d3 _ (by omega)
        (fun roff rsz hr => hrd roff rsz hr _ (Or.inr ⟨by omega, by omega⟩))
    have h2 : d3.getD (poff + t) 0 = cryptByte nk t (d2.getD (poff + t) 0) := by
      rw [hd3, getD_xor_crypt_at nk d2 poff psz _ (by omega),
        if_pos ⟨by omega, by omega⟩, Nat.add_sub_cancel_left]
    have h3 : d2.getD (poff + t) 0 = d1.getD (poff + t) 0 := by
      rw [hd2, getD_write_key nk d1 doff _ (by omega),
        if_neg (fun hin => hdp (poff + t) ⟨hin, ⟨by omega, by omega⟩⟩)]
    have h4 : d1.getD (poff + t) 0 = cryptByte ok t (disk.getD (poff + t) 0) := by
      rw [hd1, getD_xor_crypt_at ok disk poff psz _ hit,
        if_pos ⟨by omega, by omega⟩, Nat.add_sub_cancel_left]
    rw [h1, h2, h3, h4]
  rw [xor_crypt_key_congr (read_key img doff) nk (section_bytes img poff psz) hkey_img]
  apply List.ext_getElem
  · rw [length_xor_crypt, length_xor_crypt,
      length_section_bytes img poff psz (by omega),
      length_section_bytes disk poff psz hplen]
  · intro t h1 h2
    have ht : t < psz := by
      rw [length_xor_crypt, length_section_bytes img poff psz (by omega)] at h1
      exact h1
    have hsl_img : t < (section_bytes img poff psz).length := by
      rw [length_section_bytes img poff psz (by omega)]; exact ht
    have hsl_disk : t < (section_bytes disk poff psz).length := by
      rw [length_section_bytes disk poff psz hplen]; exact ht
    rw [getElem_xor_crypt nk (section_bytes img poff psz) t hsl_img h1,
      getElem_xor_crypt ok (section_bytes disk poff psz) t hsl_disk h2,
      getElem_section_bytes img poff psz t (by omega) ht hsl_img (by omega),
      getElem_section_bytes disk poff psz t hplen ht hsl_disk (by omega),
      ← List.getD_eq_getElem img 0 (show poff + t < img.length by omega),
      ← List.getD_eq_getElem disk 0 (show poff + t < disk.length by omega),
      hpoly t ht]
    exact cryptByte_invol nk t (cryptByte_lt ok t _)

/-- Witness for C3 at a concrete 12-byte image: `.data` raw bytes at
offsets 0..7 (holding the bootstrap key), `.poly` raw bytes at
offsets 8..11, no `.rdata`. -/
theorem mutate_executable_key_roundtrip_witness :
    (mutate_executable
        (fun s => if s = ".data" then some (0, 8) else
          if s = ".poly" then some (8, 4) else none)
        (fun i => i * 37 + 3) [1, 1, 1, 1, 1, 1, 1, 1, 10, 20, 30, 40]).2 = none ∧
      xor_crypt
          (read_key (mutate_executable
            (fun s => if s = ".data" then some (0, 8) else
              if s = ".poly" then some (8, 4) else none)
            (fun i => i * 37 + 3) [1, 1, 1, 1, 1, 1, 1, 1, 10, 20, 30, 40]).1 0)
          (section_bytes (mutate_executable
            (fun s => if s = ".data" then some (0, 8) else
              if s = ".poly" then some (8, 4) else none)
            (fun i => i * 37 + 3) [1, 1, 1, 1, 1, 1, 1, 1, 10, 20, 30, 40]).1 8 4) =
        xor_crypt (read_key [1, 1, 1, 1, 1, 1, 1, 1, 10, 20, 30, 40] 0)
          (section_bytes [1, 1, 1, 1, 1, 1, 1, 1, 10, 20, 30, 40] 8 4) :=
  mutate_executable_key_roundtrip
    (fun s => if s = ".data" then some (0, 8) else
      if s = ".poly" then some (8, 4) else none)
    (fun i => i * 37 + 3) [1, 1, 1, 1, 1, 1, 1, 1, 10, 20, 30, 40] 0 8 8 4
    (by decide) (by decide) (by decide) (by decide)
    (by intro i; simp only [KEY_SIZE]; omega)
    (by intro roff rsz hr; exact Option.noConfusion hr)

end PeDemo

/-- C5: when the input binary has no section named `.poly`, both
mutators terminate fatally (an error message is produced, so the process
exits with a non-zero code) before any write to the on-disk executable:
the ELF mutator reports `Could not find polymorphic section` with the
disk bytes untouched, and the PE mutator leaves the mapped image equal
to its input with some fatal message (it dies either on the earlier
`.data` lookup or on the `.poly` lookup). -/
theorem mutate_missing_poly_section
    (get_section : String → Option (Nat × Nat)) (k rands : Nat → Nat)
    (mp1 mp2 u o w : Bool) (data disk : List Nat)
    (find_section : String → Option (Nat × Nat)) (rands2 : Nat → Nat) (disk2 : List Nat)
    (hE : get_section (".poly") = none) (hP : find_section (".poly") = none) :
    ElfDemo.mutate get_section k rands mp1 mp2 u o w data disk =
      (some disk, some ("Could not find polymorphic section")) ∧
    (PeDemo.mutate_executable find_section rands2 disk2).1 = disk2 ∧
    (PeDemo.mutate_executable find_section rands2 disk2).2.isSome = true := by
  have hpe : PeDemo.mutate_executable find_section rands2 disk2 =
      (disk2, some ("Could not find .data section")) ∨
      PeDemo.mutate_executable find_section rands2 disk2 =
      (disk2, some ("Could not find polymorphic section")) := by
    unfold PeDemo.mutate_executable
    cases hD : find_section (".data") with
    | none => exact Or.inl rfl
    | some dsec =>
      rw [hP]
      exact Or.inr rfl
  refine ⟨by simp only [ElfDemo.mutate, hE], ?_⟩
  rcases hpe with h | h <;> rw [h] <;> exact ⟨rfl, rfl⟩

/-- Witness for C5: a PE image that does have `.data` but no `.poly`,
and an ELF image with no `.poly`. -/
theorem mutate_missing_poly_section_witness :
    ElfDemo.mutate (fun _ => none) (fun i => i) (fun i => i + 1)
        true true true true true [5, 6, 7] [5, 6, 7] =
      (some [5, 6, 7], some ("Could not find polymorphic section")) ∧
    (PeDemo.mutate_executable (fun s => if s = ".data" then some (0, 2) else none)
        (fun i => i) [9, 9]).1 = [9, 9] ∧
    (PeDemo.mutate_executable (fun s => if s = ".data" then some (0, 2) else none)
        (fun i => i) [9, 9]).2.isSome = true :=
  mutate_missing_poly_section (fun _ => none) (fun i => i) (fun i => i + 1)
    true true true true true [5, 6, 7] [5, 6, 7]
    (fun s => if s = ".data" then some (0, 2) else none) (fun i => i) [9, 9]
    rfl (by decide)

namespace Classifier

/-- The `FileInfo` record of the classifier. -/
structure FileInfo where
  filename : String
  filepath : String
  is_sensitive : Bool
  reason : String
deriving DecidableEq

/-- File types the scanner can distinguish through `st_mode`: regular
files (`S_ISREG`), directories, and everything else (devices, fifos,
sockets). -/
inductive FileType where
  | regular
  | directory
  | special
deriving DecidableEq

/-- What a directory entry names on disk: a plain object of some type,
or a symbolic link paired with the type of the object it resolves to
(`none` for a dangling link). -/
inductive EntryObject where
  | plain (t : FileType)
  | symlink (target : Option FileType)
deriving DecidableEq

/-- A directory entry as `readdir` yields it: its name and the on-disk
object it refers to. -/
structure DirEntry where
  d_name : String
  obj : EntryObject
deriving DecidableEq

/-- Outcome of the scanner's `stat(full_path, &file_stat)` call:
`stat(2)` follows symbolic links, so for a plain object it reports that
object's type, for a symlink it reports the type of the resolved target
(never the link itself), and it fails (`none`) for a dangling link. -/
def stat_of : EntryObject → Option FileType
  | EntryObject.plain t => some t
  | EntryObject.symlink target => target

/-- The record `scan_directory` initialises for a regular file:
`strncpy` caps the stored filename at `MAX_FILENAME_LEN - 1` characters
and the `snprintf`-built path `dir_path/name` at
`2 * MAX_FILENAME_LEN - 1` characters; the sensitivity flag starts
cleared and the reason empty. -/
def init_record (dir_path name : String) : FileInfo :=
  { filename := String.mk (name.toList.take (MAX_FILENAME_LEN - 1)),
    filepath := String.mk ((dir_path ++ "/" ++ name).toList.take (2 * MAX_FILENAME_LEN - 1)),
    is_sensitive := false,
    reason := "" }

/-- An entry yields a record iff it is neither `.` nor `..`, `stat`
succeeded, and the reported mode is `S_ISREG`.  Because `stat` follows
links, this keeps a symlink that resolves to a regular file. -/
def keeps (e : DirEntry) : Bool :=
  !(decide (e.d_name = ".") || decide (e.d_name = "..")) &&
    decide (stat_of e.obj = some FileType.regular)

/-- An entry that `stat` reports as a directory (used to state the
`N + M` bound of the scan property). -/
def keeps_dir (e : DirEntry) : Bool :=
  !(decide (e.d_name = ".") || decide (e.d_name = "..")) &&
    decide (stat_of e.obj = some FileType.directory)

/-- The `readdir` loop of `scan_directory`: the cap `*file_count <
MAX_FILES` is tested at the loop head, `.` and `..` are skipped, a
failed `stat` skips the entry, and only entries whose `stat` result is
`S_ISREG` append a record. -/
def scan_loop (dir_path : String) : List DirEntry → Nat → List FileInfo
  | [], _ => []
  | e :: rest, file_count =>
    if file_count < MAX_FILES then
      if e.d_name = "." ∨ e.d_name = ".." then scan_loop dir_path rest file_count
      else
        match stat_of e.obj with
        | some FileType.regular =>
          init_record dir_path e.d_name :: scan_loop dir_path rest (file_count + 1)
        | _ => scan_loop dir_path rest file_count
    else []

/-- Function `scan_directory(dir_path, files, file_count)`: `none` models a
directory that `opendir` cannot open (the function logs the OS error
with `perror` and returns with zero records). -/
def scan_directory (dir_path : String) (dir : Option (List DirEntry)) : List FileInfo :=
  match dir with
  | none => []
  | some entries => scan_loop dir_path entries 0

theorem keeps_false_of_pseudo (e : DirEntry) (h : e.d_name = "." ∨ e.d_name = "..") :
    keeps e = false := by
  rcases h with h | h <;> simp [keeps, h]

theorem scan_loop_eq (dir_path : String) (entries : List DirEntry) (c : Nat)
    (hc : c ≤ MAX_FILES) :
    scan_loop dir_path entries c =
      ((entries.filter keeps).take (MAX_FILES - c)).map
        (fun e => init_record dir_path e.d_name) := by
  induction entries generalizing c with
  | nil => simp [scan_loop]
  | cons e rest ih =>
    by_cases hlt : c < MAX_FILES
    · unfold scan_loop
      rw [if_pos hlt]
      by_cases hdot : e.d_name = "." ∨ e.d_name = ".."
      · rw [if_pos hdot, ih c hc]
        simp [List.filter_cons, keeps_false_of_pseudo e hdot]
      · rw [if_neg hdot]
        push_neg at hdot
        cases hk : stat_of e.obj with
        | none =>
          rw [ih c hc]
          have hke : keeps e = false := by simp [keeps, hk, hdot.1, hdot.2]
          simp [List.filter_cons, hke]
        | some k =>
          cases k with
          | regular =>
            have hke : keeps e = true := by simp [keeps, hk, hdot.1, hdot.2]
            have hsub : MAX_FILES - c = (MAX_FILES - (c + 1)) + 1 := by omega
            rw [ih (c + 1) (by omega)]
            simp only [List.filter_cons, hke, if_pos, hsub, List.take_succ_cons,
              List.map_cons]
          | directory =>
            rw [ih c hc]
            have hke : keeps e = false := by simp [keeps, hk, hdot.1, hdot.2]
            simp [List.filter_cons, hke]
          | special =>
            rw [ih c hc]
            have hke : keeps e = false := by simp [keeps, hk, hdot.1, hdot.2]
            simp [List.filter_cons, hke]
    · have hceq : c = MAX_FILES := by omega
      subst hceq
      unfold scan_loop
      rw [if_neg hlt]
      simp

/-- Counterexample to C6 as stated: the scanner classifies entries with
`stat(2)`, which follows symbolic links, so a symlink resolving to a
regular file is NOT excluded — a directory holding one such symlink
yields one record for it, refuting the claim that symlinks are
excluded. -/
theorem scan_directory_retains_symlink_to_regular :
    scan_directory ("/tmp/d")
        (some [⟨"tax_link", EntryObject.symlink (some FileType.regular)⟩]) =
      [init_record ("/tmp/d") ("tax_link")] := by
  decide

/-- C6 (amended): scanning an unopenable directory yields zero records
and logs the OS error; a scan never yields more than `MAX_FILES`
records, entries beyond the cap silently dropped; over a directory
whose entries are the pseudo-entries `.`/`..` plus `N` entries that
`stat` reports as regular files and `M` that it reports as directories,
with `N + M ≤ MAX_FILES`, the scan yields exactly the `N` records of
the stat-regular entries, in order, none for the directories; and an
entry is retained iff it is no pseudo-entry and `stat` — which follows
symbolic links and never reports a link itself — reports a regular
file, so directories, special files and dangling symlinks are excluded
while a symlink resolving to a regular file is retained. -/
theorem scan_directory_spec_amended (dir_path : String) :
    scan_directory dir_path none = [] ∧
    (∀ entries, (scan_directory dir_path (some entries)).length ≤ MAX_FILES) ∧
    (∀ entries,
      (∀ e ∈ entries, e.d_name = "." ∨ e.d_name = ".." ∨
        stat_of e.obj = some FileType.regular ∨ stat_of e.obj = some FileType.directory) →
      entries.countP keeps + entries.countP keeps_dir ≤ MAX_FILES →
      scan_directory dir_path (some entries) =
        (entries.filter keeps).map (fun e => init_record dir_path e.d_name) ∧
      (scan_directory dir_path (some entries)).length = entries.countP keeps) ∧
    (∀ e : DirEntry, keeps e = true ↔
      (e.d_name ≠ "." ∧ e.d_name ≠ ".." ∧ stat_of e.obj = some FileType.regular)) ∧
    (∀ target, stat_of (EntryObject.symlink target) = target) := by
  refine ⟨rfl, ?_, ?_, ?_, fun target => rfl⟩
  · intro entries
    show (scan_loop dir_path entries 0).length ≤ MAX_FILES
    rw [scan_loop_eq dir_path entries 0 (by omega)]
    calc (((entries.filter keeps).take (MAX_FILES - 0)).map
        (fun e => init_record dir_path e.d_name)).length
        = ((entries.filter keeps).take (MAX_FILES - 0)).length := List.length_map _ _
      _ ≤ MAX_FILES - 0 := List.length_take_le _ _
      _ ≤ MAX_FILES := by omega
  · intro entries _hkinds hcount
    have hN : (entries.filter keeps).length ≤ MAX_FILES := by
      rw [← List.countP_eq_length_filter]
      omega
    have heq : scan_directory dir_path (some entries) =
        (entries.filter keeps).map (fun e => init_record dir_path e.d_name) := by
      show scan_loop dir_path entries 0 = _
      rw [scan_loop_eq dir_path entries 0 (by omega)]
      rw [List.take_of_length_le (by omega)]
    refine ⟨heq, ?_⟩
    rw [heq, List.length_map, ← List.countP_eq_length_filter]
  · intro e
    simp [keeps, and_assoc]

/-- Witness for the amended C6: pseudo-entries, a plain regular file, a
symlink resolving to a regular file (retained), and a sub-directory;
plus the retention criterion applied to a concrete symlink entry. -/
theorem scan_directory_spec_amended_witness :
    scan_directory ("/tmp/d")
        (some [⟨".", EntryObject.plain FileType.directory⟩,
          ⟨"..", EntryObject.plain FileType.directory⟩,
          ⟨"tax.pdf", EntryObject.plain FileType.regular⟩,
          ⟨"report_link", EntryObject.symlink (some FileType.regular)⟩,
          ⟨"sub", EntryObject.plain FileType.directory⟩]) =
      ([⟨".", EntryObject.plain FileType.directory⟩,
        ⟨"..", EntryObject.plain FileType.directory⟩,
        ⟨"tax.pdf", EntryObject.plain FileType.regular⟩,
        ⟨"report_link", EntryObject.symlink (some FileType.regular)⟩,
        ⟨"sub", EntryObject.plain FileType.directory⟩].filter keeps).map
        (fun e => init_record ("/tmp/d") e.d_name) ∧
    (scan_directory ("/tmp/d")
        (some [⟨".", EntryObject.plain FileType.directory⟩,
          ⟨"..", EntryObject.plain FileType.directory⟩,
          ⟨"tax.pdf", EntryObject.plain FileType.regular⟩,
          ⟨"report_link", EntryObject.symlink (some FileType.regular)⟩,
          ⟨"sub", EntryObject.plain FileType.directory⟩])).length = 2 ∧
    keeps ⟨"report_link", EntryObject.symlink (some FileType.regular)⟩ = true := by
  have h := (scan_directory_spec_amended ("/tmp/d")).2.2.1
    [⟨".", EntryObject.plain FileType.directory⟩,
      ⟨"..", EntryObject.plain FileType.directory⟩,
      ⟨"tax.pdf", EntryObject.plain FileType.regular⟩,
      ⟨"report_link", EntryObject.symlink (some FileType.regular)⟩,
      ⟨"sub", EntryObject.plain FileType.directory⟩] (by decide) (by decide)
  refine ⟨h.1, ?_, ?_⟩
  · rw [h.2]
    decide
  · exact ((scan_directory_spec_amended ("/tmp/d")).2.2.2.1
      ⟨"report_link", EntryObject.symlink (some FileType.regular)⟩).mpr (by decide)

/-- The fixed keyword list `sensitive_keywords` of
`classify_files_with_llm`, in source order. -/
def sensitive_keywords : List String :=
  ["tax", "bank", "passport", "ssn", "confidential",
   "private", "secret", "password", "key", "invoice",
   "contract", "nda", "medical", "legal", "financial"]

/-- The lower-cased copy of the filename built by the classification
loop: `strncpy` caps it at `MAX_FILENAME_LEN - 1` characters, then each
character goes through `tolower` (ASCII). -/
def lowercase_name (s : String) : String :=
  String.mk ((s.toList.take (MAX_FILENAME_LEN - 1)).map Char.toLower)

/-- Test `strstr(hay, needle) != NULL`: the needle occurs as a contiguous
substring of the haystack. -/
def strstr_hit (hay needle : String) : Bool :=
  decide (needle.toList <:+: hay.toList)

/-- The first keyword of `sensitive_keywords`, in list order, contained
in the lower-cased filename (the inner loop `break`s on the first
hit). -/
def matched_keyword (name : String) : Option String :=
  sensitive_keywords.find? (fun kw => strstr_hit (lowercase_name name) kw)

/-- The effect of the classification loop body on one record: on a
keyword hit the record is marked sensitive with reason
`"Contains keyword: <keyword>"`; otherwise it is left untouched. -/
def classify_one (f : FileInfo) : FileInfo :=
  match matched_keyword f.filename with
  | some kw => { f with is_sensitive := true, reason := "Contains keyword: " ++ kw }
  | none => f

/-- Function `classify_files_with_llm(files, file_count)`: classify every record
in order; the returned count is incremented exactly once per record for
which a keyword matched. -/
def classify_files_with_llm : List FileInfo → List FileInfo × Nat
  | [] => ([], 0)
  | f :: rest =>
    let r := classify_files_with_llm rest
    (classify_one f :: r.1,
      (if (matched_keyword f.filename).isSome then 1 else 0) + r.2)

theorem classify_files_fst (files : List FileInfo) :
    (classify_files_with_llm files).1 = files.map classify_one := by
  induction files with
  | nil => rfl
  | cons f rest ih => simp [classify_files_with_llm, ih]

/-- C4: classification maps each record through the first-match rule —
lower-case the filename, test the keywords in list order, on the first
hit set the flag and the reason `"Contains keyword: <keyword>"` (only
the first match's keyword, even when several match) — records matching
no keyword are returned unmodified, and, for records that enter
unflagged as the scan produces them, the returned count equals the
number of records marked sensitive. -/
theorem classify_files_spec (files : List FileInfo) :
    (classify_files_with_llm files).1 = files.map classify_one ∧
    (∀ f kw, matched_keyword f.filename = some kw →
      classify_one f = { f with is_sensitive := true, reason := "Contains keyword: " ++ kw }) ∧
    (∀ f, matched_keyword f.filename = none → classify_one f = f) ∧
    ((∀ f ∈ files, f.is_sensitive = false) →
      (classify_files_with_llm files).2 =
        (classify_files_with_llm files).1.countP (fun f => f.is_sensitive)) := by
  refine ⟨classify_files_fst files, ?_, ?_, ?_⟩
  · intro f kw h
    unfold classify_one
    rw [h]
  · intro f h
    unfold classify_one
    rw [h]
  · intro hflags
    induction files with
    | nil => rfl
    | cons f rest ih =>
      have hf : f.is_sensitive = false := hflags f (by simp)
      have ihr := ih (fun g hg => hflags g (by simp [hg]))
      simp only [classify_files_with_llm, List.countP_cons]
      rw [ihr]
      cases hm : matched_keyword f.filename with
      | none =>
        have hone : classify_one f = f := by unfold classify_one; rw [hm]
        rw [hone, hf]
        exact Nat.add_comm 0 _
      | some kw =>
        have hs : (classify_one f).is_sensitive = true := by
          unfold classify_one
          rw [hm]
        rw [hs]
        exact Nat.add_comm 1 _

/-- Witness for C4: the spec's own tie-break example
`tax_bank_statement.pdf` (flagged for `tax`, not `bank`) next to an
unflagged record. -/
theorem classify_files_spec_witness :
    (classify_files_with_llm
      [⟨"tax_bank_statement.pdf", "./a/tax_bank_statement.pdf", false, ""⟩,
       ⟨"vacation_photo.jpg", "./a/vacation_photo.jpg", false, ""⟩]).1 =
      [⟨"tax_bank_statement.pdf", "./a/tax_bank_statement.pdf", false, ""⟩,
       ⟨"vacation_photo.jpg", "./a/vacation_photo.jpg", false, ""⟩].map classify_one ∧
    (classify_files_with_llm
      [⟨"tax_bank_statement.pdf", "./a/tax_bank_statement.pdf", false, ""⟩,
       ⟨"vacation_photo.jpg", "./a/vacation_photo.jpg", false, ""⟩]).2 =
      (classify_files_with_llm
        [⟨"tax_bank_statement.pdf", "./a/tax_bank_statement.pdf", false, ""⟩,
         ⟨"vacation_photo.jpg", "./a/vacation_photo.jpg", false, ""⟩]).1.countP
        (fun f => f.is_sensitive) := by
  have h := classify_files_spec
    [⟨"tax_bank_statement.pdf", "./a/tax_bank_statement.pdf", false, ""⟩,
     ⟨"vacation_photo.jpg", "./a/vacation_photo.jpg", false, ""⟩]
  exact ⟨h.1, h.2.2.2 (by decide)⟩

/-- C10: classification is deterministic and reads nothing but the
filename: over two record lists with pointwise-equal filenames — the
filepaths arbitrary, the underlying file contents never consulted — and
records entering as the scan creates them (flag clear, reason empty),
the classification produces identical sensitivity flags, identical
reason strings and the same sensitive count. -/
theorem classify_depends_only_on_filenames (files1 files2 : List FileInfo)
    (hnames : files1.map (fun f => f.filename) = files2.map (fun f => f.filename))
    (h1 : ∀ f ∈ files1, f.is_sensitive = false ∧ f.reason = "")
    (h2 : ∀ f ∈ files2, f.is_sensitive = false ∧ f.reason = "") :
    (classify_files_with_llm files1).1.map (fun f => (f.is_sensitive, f.reason)) =
      (classify_files_with_llm files2).1.map (fun f => (f.is_sensitive, f.reason)) ∧
    (classify_files_with_llm files1).2 = (classify_files_with_llm files2).2 := by
  induction files1 generalizing files2 with
  | nil =>
    cases files2 with
    | nil => exact ⟨rfl, rfl⟩
    | cons g gs => simp at hnames
  | cons f fs ih =>
    cases files2 with
    | nil => simp at hnames
    | cons g gs =>
      simp only [List.map_cons, List.cons.injEq] at hnames
      obtain ⟨hfg, htl⟩ := hnames
      have hrec := ih gs htl (fun x hx => h1 x (List.mem_cons_of_mem f hx))
        (fun x hx => h2 x (List.mem_cons_of_mem g hx))
      have hff := h1 f (by simp)
      have hgg := h2 g (by simp)
      simp only [classify_files_with_llm, List.map_cons]
      constructor
      · rw [hrec.1]
        have hhead : ((classify_one f).is_sensitive, (classify_one f).reason) =
            ((classify_one g).is_sensitive, (classify_one g).reason) := by
          unfold classify_one
          rw [hfg]
          cases matched_keyword g.filename with
          | none => simp [hff.1, hff.2, hgg.1, hgg.2]
          | some kw => simp
        rw [hhead]
      · rw [hrec.2, hfg]

/-- Witness for C10: equal filenames, different filepaths. -/
theorem classify_depends_only_on_filenames_witness :
    (classify_files_with_llm
      [⟨"bank_info.txt", "./x/bank_info.txt", false, ""⟩]).1.map
        (fun f => (f.is_sensitive, f.reason)) =
      (classify_files_with_llm
        [⟨"bank_info.txt", "/other/place/bank_info.txt", false, ""⟩]).1.map
        (fun f => (f.is_sensitive, f.reason)) ∧
    (classify_files_with_llm [⟨"bank_info.txt", "./x/bank_info.txt", false, ""⟩]).2 =
      (classify_files_with_llm
        [⟨"bank_info.txt", "/other/place/bank_info.txt", false, ""⟩]).2 :=
  classify_depends_only_on_filenames
    [⟨"bank_info.txt", "./x/bank_info.txt", false, ""⟩]
    [⟨"bank_info.txt", "/other/place/bank_info.txt", false, ""⟩]
    (by decide) (by decide) (by decide)

/-- The fields of `struct tm` used by `create_backup` (`localtime` of
the wall clock at the moment of copy): year since 1900, month 0–11, and
day/hour/minute/second. -/
structure Tm where
  tm_year : Nat
  tm_mon : Nat
  tm_mday : Nat
  tm_hour : Nat
  tm_min : Nat
  tm_sec : Nat
deriving DecidableEq

/-- Constant `BACKUP_DIR`. -/
def BACKUP_DIR : String := "./sensitive_backups"

/-- Format `%0<width>d`: decimal rendering left-padded with zeros to the field
width. -/
def zero_pad (width n : Nat) : String :=
  String.mk (List.replicate (width - (toString n).length) '0') ++ toString n

/-- The backup path built by
`snprintf("%s/%04d%02d%02d_%02d%02d%02d_%s", BACKUP_DIR, year+1900,
mon+1, mday, hour, min, sec, filename)` before buffer truncation. -/
def backup_path_for (t : Tm) (filename : String) : String :=
  BACKUP_DIR ++ "/" ++ zero_pad 4 (t.tm_year + 1900) ++ zero_pad 2 (t.tm_mon + 1) ++
    zero_pad 2 t.tm_mday ++ "_" ++ zero_pad 2 t.tm_hour ++ zero_pad 2 t.tm_min ++
    zero_pad 2 t.tm_sec ++ "_" ++ filename

/-- Truncation by `snprintf` into a buffer of `cap` bytes: at most
`cap - 1` characters are kept. -/
def snprintf_trunc (cap : Nat) (s : String) : String :=
  String.mk (s.toList.take (cap - 1))

/-- The `fread`/`fwrite` copy loop of `create_backup`: 8192-byte chunks
until `fread` returns zero bytes. -/
def copy_loop (src : List Nat) : List Nat :=
  match src with
  | [] => []
  | b :: rest => ((b :: rest).take 8192) ++ copy_loop ((b :: rest).drop 8192)
termination_by src.length
decreasing_by
  simp [List.length_drop]
  omega

/-- Function `create_backup(file)`: `src` is the byte content of the source file
(`none` when `fopen(filepath, "rb")` fails), `dst_ok` whether
`fopen(backup_path, "wb")` succeeds.  The source is only opened
read-only; a successful call produces the backup path and the copied
bytes, a failed one is reported and produces nothing. -/
def create_backup (t : Tm) (file : FileInfo) (src : Option (List Nat)) (dst_ok : Bool) :
    Option (String × List Nat) :=
  match src with
  | none => none
  | some content =>
    if dst_ok then
      some (snprintf_trunc (3 * MAX_FILENAME_LEN) (backup_path_for t file.filename),
        copy_loop content)
    else none

theorem copy_loop_eq (src : List Nat) : copy_loop src = src := by
  induction src using copy_loop.induct with
  | case1 => rw [copy_loop]
  | case2 b rest ih =>
    rw [copy_loop, ih, List.take_append_drop]

theorem string_mk_toList (s : String) : String.mk s.toList = s := rfl

/-- C7: for a readable source and a creatable destination,
`create_backup` produces a copy whose bytes equal the source content
byte for byte, under the timestamped name
`<backup dir>/YYYYMMDD_HHMMSS_<original filename>` with every numeric
field zero-padded, built from the wall-clock time `t` of the moment of
copy (the length hypothesis says the name fits the path buffer). -/
theorem create_backup_spec (t : Tm) (file : FileInfo) (content : List Nat)
    (hlen : (backup_path_for t file.filename).toList.length ≤ 3 * MAX_FILENAME_LEN - 1) :
    create_backup t file (some content) true =
      some (backup_path_for t file.filename, content) := by
  show some (snprintf_trunc (3 * MAX_FILENAME_LEN) (backup_path_for t file.filename),
      copy_loop content) = some (backup_path_for t file.filename, content)
  rw [copy_loop_eq]
  unfold snprintf_trunc
  rw [List.take_of_length_le hlen, string_mk_toList]

/-- Witness for C7 at 2024-10-11 15:30:45 with a 3-byte file. -/
theorem create_backup_spec_witness :
    create_backup ⟨124, 9, 11, 15, 30, 45⟩ ⟨"tax.pdf", "./d/tax.pdf", false, ""⟩
        (some [1, 2, 3]) true =
      some (backup_path_for ⟨124, 9, 11, 15, 30, 45⟩ ("tax.pdf"), [1, 2, 3]) :=
  create_backup_spec ⟨124, 9, 11, 15, 30, 45⟩ ⟨"tax.pdf", "./d/tax.pdf", false, ""⟩
    [1, 2, 3] (by decide)

/-- Function `main` of the classifier: scan, early-exit on zero files, classify,
early-exit on zero sensitive records, then back every sensitive record
up (per-file failures only print).  The result pairs the performed
backups with the process exit code. -/
def classifier_main (dir_path : String) (dir : Option (List DirEntry)) (t : Tm)
    (read_src : String → Option (List Nat)) (dst_ok : String → Bool) :
    List (String × List Nat) × Nat :=
  if (scan_directory dir_path dir).length = 0 then ([], 0)
  else if (classify_files_with_llm (scan_directory dir_path dir)).2 = 0 then ([], 0)
  else
    ((classify_files_with_llm (scan_directory dir_path dir)).1.filterMap
      (fun f => if f.is_sensitive then
        create_backup t f (read_src f.filepath) (dst_ok f.filepath) else none), 0)

/-- C8: the classifier's exit code is 0 on every completed run — the
`no files` and `no sensitive files` early exits, the unopenable scan
directory (zero records), and runs in which any or all per-file backups
fail — failure is never signalled through the exit code. -/
theorem classifier_main_exit_code_zero (dir_path : String) (dir : Option (List DirEntry))
    (t : Tm) (read_src : String → Option (List Nat)) (dst_ok : String → Bool) :
    (classifier_main dir_path dir t read_src dst_ok).2 = 0 := by
  unfold classifier_main
  by_cases h1 : (scan_directory dir_path dir).length = 0
  · rw [if_pos h1]
  · rw [if_neg h1]
    by_cases h2 : (classify_files_with_llm (scan_directory dir_path dir)).2 = 0
    · rw [if_pos h2]
    · rw [if_neg h2]

end Classifier

end RansomStudy
